import Mathlib

/-!
Verification of the result-aggregation and rendering pipeline of
`src/pytest_reporter/plugin.py`.

The Python source is shallowly embedded: each class or function of the
plugin becomes an executable Lean definition.  Opaque host-runner values
(test items, reports, log records, call infos, rendered text) are modelled
as strings; Python dicts become association lists with Python's
insertion-order update semantics; Python list truthiness (`if xs:`) becomes
`xs.isEmpty` tests; string truthiness (`if s:`) becomes `s != ""`.
-/

set_option maxHeartbeats 1000000

namespace PytestReporter

/-- A log record captured by the log handler (opaque host object). -/
abbrev LogRecord := String

/-- A style mapping, e.g. `{"yellow": True}` in the Python source. -/
abbrev Style := List (String × Bool)

/-- The `word` component of a `pytest_report_teststatus` result: either a
plain string, or a `(word, style)` tuple (`isinstance(self.word, tuple)`
in `TestPhase.__init__`). -/
inductive StatusWord where
  | plain (word : String)
  | compound (word : String) (style : Style)
deriving Repr, DecidableEq

/-- The `(category, letter, word)` triple yielded by the
`pytest_report_teststatus` hook dispatch. -/
abbrev StatusTriple := String × String × StatusWord

/-- Embeds class `TestPhase` (plugin.py lines 82-93): the state after
`__init__` has run. -/
structure TestPhase where
  call : String
  report : String
  log_records : List LogRecord
  category : String
  letter : String
  word : String
  style : Style
deriving Repr, DecidableEq

/-- Embeds `TestPhase.__init__`: unpack the hook result triple; if the word
component is a tuple, split it into word and style, otherwise the style
defaults to the empty mapping. -/
def TestPhase.make (call report : String) (log_records : List LogRecord)
    (res : StatusTriple) : TestPhase :=
  let (category, letter, w) := res
  match w with
  | .plain word => ⟨call, report, log_records, category, letter, word, []⟩
  | .compound word style => ⟨call, report, log_records, category, letter, word, style⟩

/-- Embeds class `TestRun` (plugin.py lines 64-79). -/
structure TestRun where
  item : String
  phases : List TestPhase
  category : String
  letter : String
  word : String
  style : Style
deriving Repr, DecidableEq

/-- Embeds `TestRun.__init__(item)`. -/
def TestRun.init (item : String) : TestRun :=
  ⟨item, [], "", "", "", []⟩

/-- Python string truthiness of `phase.letter or phase.word` in
`TestRun.append_phase`. -/
def phaseEffective (phase : TestPhase) : Bool :=
  phase.letter != "" || phase.word != ""

/-- Embeds `TestRun.append_phase`: append the phase, and if its letter or
word is non-empty take over its category/letter/word/style. -/
def TestRun.append_phase (run : TestRun) (phase : TestPhase) : TestRun :=
  let run' := { run with phases := run.phases ++ [phase] }
  if phaseEffective phase then
    { run' with
        category := phase.category
        letter := phase.letter
        word := phase.word
        style := phase.style }
  else
    run'

/-- Appending a whole sequence of phases in order. -/
def appendPhases (run : TestRun) (ps : List TestPhase) : TestRun :=
  ps.foldl TestRun.append_phase run

/-- The overall status fields of a test run, as one tuple. -/
def runStatus (run : TestRun) : String × String × String × Style :=
  (run.category, run.letter, run.word, run.style)

/-- The status fields a phase would impose. -/
def phaseStatus (phase : TestPhase) : String × String × String × Style :=
  (phase.category, phase.letter, phase.word, phase.style)

/-- The last phase of the sequence whose letter or word is non-empty. -/
def lastEffectivePhase (ps : List TestPhase) : Option TestPhase :=
  ps.reverse.find? phaseEffective

/-! ## Log capture sink (class `LogHandler`, plugin.py lines 153-164)

The handler's only state is `self._buffer`, a Python list; we embed the
buffer directly and make `emit` and `pop_records` state transformers. -/

/-- `__init__`: `self._buffer = []`. -/
def LogHandler.initBuffer : List LogRecord := []

/-- `emit(record)`: `self._buffer.append(record)`. -/
def LogHandler.emit (buffer : List LogRecord) (record : LogRecord) : List LogRecord :=
  buffer ++ [record]

/-- `pop_records()`: returns `(records, new_buffer)` where `records` is the
current buffer and the new buffer is empty. -/
def LogHandler.pop_records (buffer : List LogRecord) :
    List LogRecord × List LogRecord :=
  (buffer, [])

/-! ## Configuration-time setup (`pytest_configure`, plugin.py lines 41-53) -/

/-- The slice of the pytest `config` object that `pytest_configure` reads:
whether `config` carries a `slaveinput` attribute (set by the distributed
runner on worker processes) and the values of the repeatable CLI options. -/
structure Config where
  hasSlaveinput : Bool
  report_path : List String
  template : List String
  template_dir : List String
deriving Repr, DecidableEq

/-- The shared render context dict created by `pytest_configure`:
`{"config": config, "test_runs": []}`. -/
structure TemplateContext where
  config : Config
  test_runs : List TestRun
deriving Repr, DecidableEq

/-- What `pytest_configure` did: the context it stored on the config
object, and which plugins it registered with the plugin manager. -/
structure ConfigureResult where
  template_context : TemplateContext
  reporter_registered : Bool
  jinja2_registered : Bool
  mako_registered : Bool
deriving Repr, DecidableEq

/-- Embeds `pytest_configure(config)`: always create the template context;
register the `ReportGenerator` and both engine modules only when
`--report-path` is non-empty (Python list truthiness) and the config has no
`slaveinput` attribute. -/
def pytest_configure (config : Config) : ConfigureResult :=
  let is_slave := config.hasSlaveinput
  let ctx : TemplateContext := { config := config, test_runs := [] }
  if !config.report_path.isEmpty && !is_slave then
    { template_context := ctx
      reporter_registered := true
      jinja2_registered := true
      mako_registered := true }
  else
    { template_context := ctx
      reporter_registered := false
      jinja2_registered := false
      mako_registered := false }

/-- The log capture sink is installed (`logging.getLogger().addHandler`) in
`ReportGenerator.pytest_sessionstart`, which only runs when the reporter
was registered with the plugin manager. -/
def logSinkInstalled (r : ConfigureResult) : Bool :=
  r.reporter_registered

/-- The render pipeline (`ReportGenerator.pytest_sessionfinish`) only runs
when the reporter was registered with the plugin manager. -/
def renderPipelineRuns (r : ConfigureResult) : Bool :=
  r.reporter_registered

/-! ## Template directory resolution (plugin.py lines 122-127) -/

/-- One answer of the `pytest_reporter_template_dir` hook: a single path or
a list of paths (`isinstance(dirs, list)` in the source). -/
inductive DirsAnswer where
  | single (dir : String)
  | multiple (dirs : List String)
deriving Repr, DecidableEq

/-- The list of paths one answer denotes. -/
def DirsAnswer.paths : DirsAnswer → List String
  | .single d => [d]
  | .multiple ds => ds

/-- Embeds the `template_dirs` loop of `pytest_sessionfinish`: start empty,
`extend` for a list answer, `append` for a single answer. -/
def collectTemplateDirs (answers : List DirsAnswer) : List String :=
  answers.foldl
    (fun template_dirs dirs =>
      match dirs with
      | .multiple ds => template_dirs ++ ds
      | .single d => template_dirs ++ [d])
    []

/-! ## Python dict model and context merge (plugin.py lines 134-137)

A Python dict is an association list with unique keys; `d[k] = v` replaces
the value in place when the key is present (preserving insertion order)
and appends otherwise, and `d.update(e)` performs `d[k] = v` for each
entry of `e` in order. -/

/-- A Python dict as an insertion-ordered association list. -/
abbrev PyDict (α : Type) := List (String × α)

/-- Python `d[k]`: the value of the (unique) entry whose key is `k`. -/
def dictGet {α : Type} (d : PyDict α) (k : String) : Option α :=
  (d.find? (fun e => e.1 == k)).map (fun e => e.2)

/-- Python `d[k] = v`. -/
def dictSet {α : Type} (d : PyDict α) (k : String) (v : α) : PyDict α :=
  if d.any (fun e => e.1 == k) then
    d.map (fun e => if e.1 == k then (k, v) else e)
  else
    d ++ [(k, v)]

/-- Python `d.update(e)`. -/
def dictUpdate {α : Type} (d e : PyDict α) : PyDict α :=
  e.foldl (fun acc kv => dictSet acc kv.1 kv.2) d

/-- Embeds the context merge of `pytest_sessionfinish`:
`ctx = {}` then `ctx.update(context)` for each hook answer in order. -/
def mergeContexts {α : Type} (contexts : List (PyDict α)) : PyDict α :=
  contexts.foldl dictUpdate []

/-- A dict has unique keys (true of every real Python dict). -/
abbrev dictWF {α : Type} (d : PyDict α) : Prop :=
  (d.map (fun e => e.1)).Nodup

/-- The value the last contributed mapping containing `k` gives it. -/
def lastContribution {α : Type} (contexts : List (PyDict α)) (k : String) :
    Option α :=
  contexts.reverse.findSome? (fun d => dictGet d k)

/-! ## Render loop and filesystem model (plugin.py lines 138-150)

The loop zips `--template` with `--report-path`; for each pair it calls the
render hook, creates the output path's parent directory
(`target.parent.mkdir(parents=True, exist_ok=True)`), writes the text
(`target.write_text(content)`, overwriting), and fires the finish hook.
The filesystem is modelled as a directory set plus a path-to-content map;
every step is total, mirroring that none of these operations raises on the
happy path. -/

/-- `Path(path).parent` for the POSIX-style paths the plugin handles:
everything before the last separator, `"."` when there is none. -/
def parentDir (p : String) : String :=
  let rev := p.data.reverse
  match rev.dropWhile (fun c => c ≠ '/') with
  | [] => "."
  | _ :: tail => String.mk tail.reverse

/-- The modelled filesystem. -/
structure FS where
  dirs : List String
  files : List (String × String)
deriving Repr, DecidableEq

/-- `mkdir(parents=True, exist_ok=True)`: ensure the directory exists,
never raising when it already does. -/
def FS.mkdirParents (fs : FS) (d : String) : FS :=
  if fs.dirs.contains d then fs else { fs with dirs := fs.dirs ++ [d] }

/-- `Path(path).write_text(content)`: create or overwrite the file.  The
file map uses the same overwrite-or-append update as the dict model. -/
def FS.writeText (fs : FS) (path content : String) : FS :=
  { fs with files := dictSet fs.files path content }

/-- Reading a file back from the modelled filesystem. -/
def FS.readText (fs : FS) (path : String) : Option String :=
  dictGet fs.files path

/-- Observable events of the render loop, in the order the source performs
them for each pair. -/
inductive RenderEvent where
  | render (template : String)
  | mkdir (dir : String)
  | write (path content : String)
  | finish (path : String)
deriving Repr, DecidableEq

/-- One iteration of the render loop for the pair `(template, path)`:
render, ensure the parent directory, write the text, fire the finish
hook.  `renderHook` is the `pytest_reporter_render` dispatch. -/
def processPair (renderHook : String → String) (fs : FS)
    (pair : String × String) : FS × List RenderEvent :=
  let (template, path) := pair
  let content := renderHook template
  let fs1 := fs.mkdirParents (parentDir path)
  let fs2 := fs1.writeText path content
  (fs2, [.render template, .mkdir (parentDir path), .write path content, .finish path])

/-- The whole render loop of `pytest_sessionfinish`: iterate over
`zip(--template, --report-path)`, accumulating filesystem state and the
event trace. -/
def renderLoop (renderHook : String → String) (fs : FS)
    (templates paths : List String) : FS × List RenderEvent :=
  (templates.zip paths).foldl
    (fun acc pair =>
      ((processPair renderHook acc.1 pair).1,
       acc.2 ++ (processPair renderHook acc.1 pair).2))
    (fs, [])

/-- The events one loop iteration produces (they do not depend on the
filesystem state). -/
def pairEvents (renderHook : String → String) (pair : String × String) :
    List RenderEvent :=
  [.render pair.1, .mkdir (parentDir pair.2),
   .write pair.2 (renderHook pair.1), .finish pair.2]

/-- The templates rendered during a trace, in order. -/
def renderedTemplates (events : List RenderEvent) : List String :=
  events.filterMap (fun e => match e with | .render t => some t | _ => none)

/-- The paths written during a trace, in order. -/
def writtenPaths (events : List RenderEvent) : List String :=
  events.filterMap (fun e => match e with | .write p _ => some p | _ => none)

/-! ## Theorems -/

theorem runStatus_append_phase_of_not_effective (run : TestRun) (phase : TestPhase)
    (h : phaseEffective phase = false) :
    runStatus (run.append_phase phase) = runStatus run := by
  simp [TestRun.append_phase, h, runStatus]

theorem runStatus_append_phase_of_effective (run : TestRun) (phase : TestPhase)
    (h : phaseEffective phase = true) :
    runStatus (run.append_phase phase) = phaseStatus phase := by
  simp [TestRun.append_phase, h, runStatus, phaseStatus]

theorem runStatus_appendPhases (run : TestRun) (ps : List TestPhase) :
    runStatus (appendPhases run ps) =
      match lastEffectivePhase ps with
      | some p => phaseStatus p
      | none => runStatus run := by
  induction ps generalizing run with
  | nil => simp [appendPhases, lastEffectivePhase]
  | cons p rest ih =>
    have hfold : appendPhases run (p :: rest) =
        appendPhases (run.append_phase p) rest := rfl
    have hlast : lastEffectivePhase (p :: rest) =
        (lastEffectivePhase rest).or
          (if phaseEffective p then some p else none) := by
      simp only [lastEffectivePhase, List.reverse_cons, List.find?_append, List.find?]
      cases phaseEffective p <;>
        cases List.find? phaseEffective rest.reverse <;>
          simp [Option.or, Option.orElse]
    rw [hfold, ih (run.append_phase p), hlast]
    cases hr : lastEffectivePhase rest with
    | some q => simp [Option.or]
    | none =>
      cases hp : phaseEffective p with
      | true => simp [Option.or, hp, runStatus_append_phase_of_effective run p hp]
      | false => simp [Option.or, hp, runStatus_append_phase_of_not_effective run p hp]

/-- C1: for every sequence of phases appended via `append_phase`, the test
run's overall (category, letter, word, style) equal those of the last
appended phase whose letter or word is non-empty; if no appended phase has
a non-empty letter or word, they stay at their initial empty values. -/
theorem overall_status_eq_last_effective_phase (item : String) (ps : List TestPhase) :
    runStatus (appendPhases (TestRun.init item) ps) =
      match lastEffectivePhase ps with
      | some p => (p.category, p.letter, p.word, p.style)
      | none => ("", "", "", ([] : Style)) := by
  rw [runStatus_appendPhases]
  cases lastEffectivePhase ps with
  | some p => rfl
  | none => rfl

theorem foldl_emit_eq_append (buffer rs : List LogRecord) :
    rs.foldl LogHandler.emit buffer = buffer ++ rs := by
  induction rs generalizing buffer with
  | nil => simp
  | cons r rest ih => simp [LogHandler.emit, ih]

/-- C2: after any sequence of emits following a `pop_records` call (or
construction, whose buffer is the same empty list), `pop_records` returns
exactly the emitted records in order and resets the buffer to empty, so a
second `pop_records` with no intervening emit returns the empty sequence. -/
theorem pop_records_returns_emission_window (buffer rs : List LogRecord) :
    (LogHandler.pop_records
        (rs.foldl LogHandler.emit (LogHandler.pop_records buffer).2)).1 = rs ∧
    (LogHandler.pop_records
        (rs.foldl LogHandler.emit LogHandler.initBuffer)).1 = rs ∧
    (LogHandler.pop_records
        (rs.foldl LogHandler.emit (LogHandler.pop_records buffer).2)).2 = [] ∧
    (LogHandler.pop_records
        ((LogHandler.pop_records
            (rs.foldl LogHandler.emit (LogHandler.pop_records buffer).2)).2)).1 = [] := by
  simp [LogHandler.pop_records, LogHandler.initBuffer, foldl_emit_eq_append]

/-- C3: when the status-classification hook yields no specific result —
the empty classification `("", "", "")`, pytest's defined default for an
unclassified phase — constructing the phase record succeeds, its letter and
word are empty, and appending it leaves the test run's overall
category/letter/word/style unchanged (only the phase list grows). -/
theorem empty_classification_does_not_change_status (call report : String)
    (logs : List LogRecord) (run : TestRun) :
    (TestPhase.make call report logs ("", "", StatusWord.plain "")).letter = "" ∧
    (TestPhase.make call report logs ("", "", StatusWord.plain "")).word = "" ∧
    runStatus (run.append_phase
        (TestPhase.make call report logs ("", "", StatusWord.plain ""))) = runStatus run ∧
    (run.append_phase
        (TestPhase.make call report logs ("", "", StatusWord.plain ""))).phases =
      run.phases ++ [TestPhase.make call report logs ("", "", StatusWord.plain "")] := by
  refine ⟨rfl, rfl, ?_, ?_⟩
  · exact runStatus_append_phase_of_not_effective run _ rfl
  · simp [TestRun.append_phase, phaseEffective, TestPhase.make]

/-- C8: a compound word value from the status-classification hook is
unpacked into the phase's word (the label) and style (the mapping); a plain
word is taken unchanged and the style defaults to the empty mapping. -/
theorem make_unpacks_compound_word (call report : String) (logs : List LogRecord)
    (category letter label : String) (style : Style) :
    ((TestPhase.make call report logs
        (category, letter, StatusWord.compound label style)).word = label ∧
     (TestPhase.make call report logs
        (category, letter, StatusWord.compound label style)).style = style) ∧
    ((TestPhase.make call report logs
        (category, letter, StatusWord.plain label)).word = label ∧
     (TestPhase.make call report logs
        (category, letter, StatusWord.plain label)).style = ([] : Style)) := by
  exact ⟨⟨rfl, rfl⟩, ⟨rfl, rfl⟩⟩

/-- C9: on a worker process (config carries `slaveinput`),
`pytest_configure` registers neither the report generator nor the engine
modules, so the log sink is never installed and the render pipeline never
runs there; the decision depends only on the configuration object. -/
theorem worker_configure_registers_nothing (config : Config)
    (h : config.hasSlaveinput = true) :
    (pytest_configure config).reporter_registered = false ∧
    (pytest_configure config).jinja2_registered = false ∧
    (pytest_configure config).mako_registered = false ∧
    logSinkInstalled (pytest_configure config) = false ∧
    renderPipelineRuns (pytest_configure config) = false := by
  simp [pytest_configure, h, logSinkInstalled, renderPipelineRuns]

theorem worker_configure_registers_nothing_witness :
    (Config.mk true ["report.html"] ["report.tmpl"] ["."]).hasSlaveinput = true ∧
    ((pytest_configure (Config.mk true ["report.html"] ["report.tmpl"] ["."])).reporter_registered = false ∧
     (pytest_configure (Config.mk true ["report.html"] ["report.tmpl"] ["."])).jinja2_registered = false ∧
     (pytest_configure (Config.mk true ["report.html"] ["report.tmpl"] ["."])).mako_registered = false ∧
     logSinkInstalled (pytest_configure (Config.mk true ["report.html"] ["report.tmpl"] ["."])) = false ∧
     renderPipelineRuns (pytest_configure (Config.mk true ["report.html"] ["report.tmpl"] ["."])) = false) :=
  ⟨rfl, worker_configure_registers_nothing _ rfl⟩

/-- C10: with an empty `--report-path` list, `pytest_configure` registers
neither the report generator nor any renderer adapter (even on the primary
process and even with `--template` configured), while the shared render
context with the config and an empty `test_runs` list is still created. -/
theorem no_report_path_registers_nothing (config : Config)
    (h : config.report_path = []) :
    (pytest_configure config).reporter_registered = false ∧
    (pytest_configure config).jinja2_registered = false ∧
    (pytest_configure config).mako_registered = false ∧
    renderPipelineRuns (pytest_configure config) = false ∧
    (pytest_configure config).template_context =
      TemplateContext.mk config [] := by
  simp [pytest_configure, h, renderPipelineRuns]

theorem no_report_path_registers_nothing_witness :
    (Config.mk false [] ["report.tmpl"] ["."]).report_path = [] ∧
    ((pytest_configure (Config.mk false [] ["report.tmpl"] ["."])).reporter_registered = false ∧
     (pytest_configure (Config.mk false [] ["report.tmpl"] ["."])).jinja2_registered = false ∧
     (pytest_configure (Config.mk false [] ["report.tmpl"] ["."])).mako_registered = false ∧
     renderPipelineRuns (pytest_configure (Config.mk false [] ["report.tmpl"] ["."])) = false ∧
     (pytest_configure (Config.mk false [] ["report.tmpl"] ["."])).template_context =
       TemplateContext.mk (Config.mk false [] ["report.tmpl"] ["."]) []) :=
  ⟨rfl, no_report_path_registers_nothing _ rfl⟩

theorem collectTemplateDirs_foldl (answers : List DirsAnswer) (acc : List String) :
    answers.foldl
        (fun template_dirs dirs =>
          match dirs with
          | .multiple ds => template_dirs ++ ds
          | .single d => template_dirs ++ [d])
        acc
      = acc ++ (answers.map DirsAnswer.paths).flatten := by
  induction answers generalizing acc with
  | nil => simp
  | cons a rest ih => cases a <;> simp [ih, DirsAnswer.paths]

/-- C5: the resolved template-directory list is the flattening of the hook
answers — single paths become singletons, path lists are spliced — in
answer order then intra-answer order, with no deduplication. -/
theorem template_dirs_are_flattened_answers (answers : List DirsAnswer) :
    collectTemplateDirs answers = (answers.map DirsAnswer.paths).flatten := by
  simpa using collectTemplateDirs_foldl answers []

/-! ### Dict lemmas for the context merge -/

theorem dictGet_cons {α : Type} (e : String × α) (rest : PyDict α) (k : String) :
    dictGet (e :: rest) k = if e.1 == k then some e.2 else dictGet rest k := by
  by_cases h : (e.1 == k) = true <;> simp [dictGet, List.find?_cons, h]

theorem dictSet_cons_of_ne {α : Type} (e : String × α) (rest : PyDict α)
    (k : String) (v : α) (he : (e.1 == k) = false) :
    dictSet (e :: rest) k v = e :: dictSet rest k v := by
  have he' : e.1 ≠ k := by simpa using he
  cases h : rest.any (fun x => x.1 == k) with
  | true => simp [dictSet, List.any_cons, he, h, he']
  | false => simp [dictSet, List.any_cons, he, h, he']

theorem find?_map_dictSet_ne {α : Type} (d : PyDict α) (k k' : String) (v : α)
    (hne : ((k : String) == k') = false) :
    (d.map (fun e => if e.1 == k then (k, v) else e)).find? (fun e => e.1 == k')
      = d.find? (fun e => e.1 == k') := by
  induction d with
  | nil => rfl
  | cons e rest ih =>
    rw [List.map_cons]
    by_cases he : (e.1 == k) = true
    · have he' : e.1 = k := by simpa using he
      rw [if_pos he, List.find?_cons, List.find?_cons]
      have h1 : (((k, v) : String × α).1 == k') = false := hne
      have h2 : (e.1 == k') = false := by rw [he']; exact hne
      rw [h1, h2]
      exact ih
    · rw [if_neg he, List.find?_cons, List.find?_cons]
      cases hk' : (e.1 == k') with
      | true => rfl
      | false => exact ih

theorem dictGet_dictSet {α : Type} (d : PyDict α) (k k' : String) (v : α) :
    dictGet (dictSet d k v) k' = if k' = k then some v else dictGet d k' := by
  induction d with
  | nil =>
    by_cases h : k' = k
    · subst h
      simp [dictSet, dictGet, List.find?]
    · have hb : ((k : String) == k') = false := by
        simp only [beq_eq_false_iff_ne, ne_eq]
        exact fun hh => h hh.symm
      simp [dictSet, dictGet, List.find?, hb, h]
  | cons e rest ih =>
    by_cases he : (e.1 == k) = true
    · have he' : e.1 = k := by simpa using he
      have hany : (e :: rest).any (fun x => x.1 == k) = true := by
        simp [List.any_cons, he]
      rw [dictSet, if_pos hany]
      by_cases hk : k' = k
      · subst hk
        rw [if_pos rfl]
        unfold dictGet
        rw [List.map_cons, if_pos he, List.find?_cons]
        have h1 : (((k', v) : String × α).1 == k') = true := by simp
        rw [h1]
        rfl
      · have hkk' : ((k : String) == k') = false := by
          simp only [beq_eq_false_iff_ne, ne_eq]
          exact fun hh => hk hh.symm
        rw [if_neg hk]
        unfold dictGet
        rw [List.map_cons, if_pos he, List.find?_cons, List.find?_cons]
        have h1 : (((k, v) : String × α).1 == k') = false := hkk'
        have h2 : (e.1 == k') = false := by rw [he']; exact hkk'
        rw [h1, h2, find?_map_dictSet_ne rest k k' v hkk']
    · have he' : (e.1 == k) = false := by simpa using he
      rw [dictSet_cons_of_ne e rest k v he']
      rw [dictGet_cons, dictGet_cons, ih]
      by_cases hk' : (e.1 == k') = true
      · have hne : k' ≠ k := by
          have h1 : e.1 = k' := by simpa using hk'
          intro hh
          rw [hh] at h1
          rw [h1] at he'
          simp at he'
        simp [hk', hne]
      · simp [hk']

theorem dictGet_eq_none_of_not_mem {α : Type} (d : PyDict α) (k : String)
    (h : k ∉ d.map (fun e => e.1)) :
    dictGet d k = none := by
  induction d with
  | nil => rfl
  | cons e rest ih =>
    simp only [List.map_cons, List.mem_cons, not_or] at h
    rw [dictGet_cons]
    have : (e.1 == k) = false := by
      simp [beq_iff_eq]
      exact fun hh => h.1 hh.symm
    simp [this, ih h.2]

theorem dictGet_dictUpdate {α : Type} (d e : PyDict α) (k : String)
    (he : dictWF e) :
    dictGet (dictUpdate d e) k = (dictGet e k).or (dictGet d k) := by
  induction e generalizing d with
  | nil => simp [dictUpdate, dictGet, Option.or]
  | cons kv rest ih =>
    have hrest : dictWF rest := (List.nodup_cons.mp he).2
    have hnotin : kv.1 ∉ rest.map (fun x => x.1) := (List.nodup_cons.mp he).1
    have hstep : dictUpdate d (kv :: rest) =
        dictUpdate (dictSet d kv.1 kv.2) rest := rfl
    rw [hstep, ih _ hrest, dictGet_dictSet, dictGet_cons]
    by_cases hk : k = kv.1
    · subst hk
      have hnone : dictGet rest kv.1 = none :=
        dictGet_eq_none_of_not_mem rest kv.1 hnotin
      have hb : (kv.1 == kv.1) = true := by simp
      rw [hnone, if_pos rfl, if_pos hb]
      rfl
    · have hb : (kv.1 == k) = false := by
        simp only [beq_eq_false_iff_ne, ne_eq]
        exact fun hh => hk hh.symm
      rw [if_neg hk, hb]
      rfl

theorem findSome?_append_or {α β : Type} (l₁ l₂ : List α) (g : α → Option β) :
    (l₁ ++ l₂).findSome? g = (l₁.findSome? g).or (l₂.findSome? g) := by
  induction l₁ with
  | nil => simp [Option.or]
  | cons a l ih =>
    rw [List.cons_append, List.findSome?_cons, List.findSome?_cons]
    cases g a <;> simp [ih, Option.or]

theorem lastContribution_cons {α : Type} (c : PyDict α)
    (rest : List (PyDict α)) (k : String) :
    lastContribution (c :: rest) k =
      (lastContribution rest k).or (dictGet c k) := by
  rw [lastContribution, lastContribution, List.reverse_cons, findSome?_append_or]
  cases rest.reverse.findSome? (fun d => dictGet d k) <;>
    cases h : dictGet c k <;> simp [List.findSome?, h, Option.or]

theorem dictGet_foldl_dictUpdate {α : Type} (contexts : List (PyDict α))
    (d : PyDict α) (k : String) (h : ∀ x ∈ contexts, dictWF x) :
    dictGet (contexts.foldl dictUpdate d) k =
      (lastContribution contexts k).or (dictGet d k) := by
  induction contexts generalizing d with
  | nil => simp [lastContribution, Option.or]
  | cons c rest ih =>
    rw [List.foldl_cons,
      ih _ (fun x hx => h x (List.mem_cons_of_mem _ hx)),
      dictGet_dictUpdate _ _ _ (h c (List.mem_cons_self _ _)),
      lastContribution_cons]
    cases lastContribution rest k <;>
      cases dictGet c k <;> cases dictGet d k <;> simp [Option.or]

/-- C6: the merged render context maps each key to the value given by the
last contributed mapping containing that key — later collaborators
overwrite earlier ones — provided each contribution is a well-formed dict
(unique keys, as every Python dict is). -/
theorem merge_contexts_last_collaborator_wins {α : Type}
    (contexts : List (PyDict α)) (k : String)
    (h : ∀ d ∈ contexts, dictWF d) :
    dictGet (mergeContexts contexts) k = lastContribution contexts k := by
  rw [mergeContexts, dictGet_foldl_dictUpdate contexts [] k h]
  cases lastContribution contexts k <;> simp [dictGet, Option.or]

theorem merge_contexts_last_collaborator_wins_witness :
    (∀ d ∈ [[("x", (1 : Nat))], [("x", 2), ("y", 3)]], dictWF d) ∧
    dictGet (mergeContexts [[("x", (1 : Nat))], [("x", 2), ("y", 3)]]) "x" =
      lastContribution [[("x", (1 : Nat))], [("x", 2), ("y", 3)]] "x" ∧
    mergeContexts [[("x", (1 : Nat))], [("x", 2), ("y", 3)]] =
      [("x", 2), ("y", 3)] :=
  ⟨by decide,
   merge_contexts_last_collaborator_wins
     [[("x", (1 : Nat))], [("x", 2), ("y", 3)]] "x" (by decide),
   by decide⟩

/-! ### Render loop lemmas -/

theorem processPair_snd (renderHook : String → String) (fs : FS)
    (pair : String × String) :
    (processPair renderHook fs pair).2 = pairEvents renderHook pair := by
  cases pair
  rfl

theorem renderLoop_foldl_aux (renderHook : String → String)
    (pairs : List (String × String)) (fs : FS) (tr : List RenderEvent) :
    pairs.foldl
        (fun acc pair =>
          ((processPair renderHook acc.1 pair).1,
           acc.2 ++ (processPair renderHook acc.1 pair).2))
        (fs, tr)
      = (pairs.foldl (fun f pair => (processPair renderHook f pair).1) fs,
         tr ++ (pairs.map (pairEvents renderHook)).flatten) := by
  induction pairs generalizing fs tr with
  | nil => simp
  | cons pair rest ih =>
    rw [List.foldl_cons, ih, List.foldl_cons]
    rw [processPair_snd]
    simp [List.append_assoc]

theorem renderLoop_eq (renderHook : String → String) (fs : FS)
    (templates paths : List String) :
    renderLoop renderHook fs templates paths
      = ((templates.zip paths).foldl
           (fun f pair => (processPair renderHook f pair).1) fs,
         ((templates.zip paths).map (pairEvents renderHook)).flatten) := by
  rw [renderLoop, renderLoop_foldl_aux]
  simp

theorem renderedTemplates_flatten (renderHook : String → String)
    (pairs : List (String × String)) :
    renderedTemplates ((pairs.map (pairEvents renderHook)).flatten)
      = pairs.map Prod.fst := by
  induction pairs with
  | nil => rfl
  | cons pair rest ih =>
    simp only [List.map_cons, List.flatten_cons, renderedTemplates,
      List.filterMap_append]
    have h1 : (pairEvents renderHook pair).filterMap
        (fun e => match e with | .render t => some t | _ => none) = [pair.1] := rfl
    rw [h1]
    simpa [renderedTemplates] using ih

theorem writtenPaths_flatten (renderHook : String → String)
    (pairs : List (String × String)) :
    writtenPaths ((pairs.map (pairEvents renderHook)).flatten)
      = pairs.map Prod.snd := by
  induction pairs with
  | nil => rfl
  | cons pair rest ih =>
    simp only [List.map_cons, List.flatten_cons, writtenPaths,
      List.filterMap_append]
    have h1 : (pairEvents renderHook pair).filterMap
        (fun e => match e with | .write p _ => some p | _ => none) = [pair.2] := rfl
    rw [h1]
    simpa [writtenPaths] using ih

theorem zip_getElem? (ts ps : List String) (i : Nat) :
    (ts.zip ps)[i]? =
      Option.bind ts[i]? (fun t => Option.map (fun p => (t, p)) ps[i]?) := by
  induction ts generalizing ps i with
  | nil => simp
  | cons t ts ih =>
    cases ps with
    | nil => cases h : (t :: ts)[i]? <;> simp [h]
    | cons p ps =>
      cases i with
      | zero => simp
      | succ n => simpa using ih ps n

/-- C4: the render loop performs exactly `min(len(templates), len(paths))`
render operations and as many writes, pairing element `i` of the template
list with element `i` of the path list; pairs beyond the shorter list are
silently dropped and the loop is total — unequal lengths raise no error. -/
theorem render_loop_truncates_to_shorter_list (renderHook : String → String)
    (fs : FS) (templates paths : List String) :
    (renderedTemplates (renderLoop renderHook fs templates paths).2).length
        = min templates.length paths.length ∧
    (writtenPaths (renderLoop renderHook fs templates paths).2).length
        = min templates.length paths.length ∧
    (∀ i : Nat, (renderedTemplates (renderLoop renderHook fs templates paths).2)[i]?
        = if i < min templates.length paths.length then templates[i]? else none) ∧
    (∀ i : Nat, (writtenPaths (renderLoop renderHook fs templates paths).2)[i]?
        = if i < min templates.length paths.length then paths[i]? else none) := by
  have hr : renderedTemplates (renderLoop renderHook fs templates paths).2
      = (templates.zip paths).map Prod.fst := by
    rw [renderLoop_eq]
    exact renderedTemplates_flatten renderHook (templates.zip paths)
  have hw : writtenPaths (renderLoop renderHook fs templates paths).2
      = (templates.zip paths).map Prod.snd := by
    rw [renderLoop_eq]
    exact writtenPaths_flatten renderHook (templates.zip paths)
  refine ⟨?_, ?_, ?_, ?_⟩
  · rw [hr]
    simp [List.length_zip]
  · rw [hw]
    simp [List.length_zip]
  · intro i
    rw [hr, List.getElem?_map, zip_getElem?]
    by_cases h : i < min templates.length paths.length
    · have h1 : i < templates.length := lt_of_lt_of_le h (min_le_left _ _)
      have h2 : i < paths.length := lt_of_lt_of_le h (min_le_right _ _)
      rw [if_pos h, List.getElem?_eq_getElem h1, List.getElem?_eq_getElem h2]
      rfl
    · rw [if_neg h]
      rcases min_le_iff.mp (Nat.not_lt.mp h) with h' | h'
      · rw [List.getElem?_eq_none h']
        rfl
      · rw [List.getElem?_eq_none h']
        cases templates[i]? <;> rfl
  · intro i
    rw [hw, List.getElem?_map, zip_getElem?]
    by_cases h : i < min templates.length paths.length
    · have h1 : i < templates.length := lt_of_lt_of_le h (min_le_left _ _)
      have h2 : i < paths.length := lt_of_lt_of_le h (min_le_right _ _)
      rw [if_pos h, List.getElem?_eq_getElem h1, List.getElem?_eq_getElem h2]
      rfl
    · rw [if_neg h]
      rcases min_le_iff.mp (Nat.not_lt.mp h) with h' | h'
      · rw [List.getElem?_eq_none h']
        rfl
      · rw [List.getElem?_eq_none h']
        cases templates[i]? <;> rfl

theorem readText_writeText_self (fs : FS) (p c : String) :
    (fs.writeText p c).readText p = some c := by
  show dictGet (dictSet fs.files p c) p = some c
  rw [dictGet_dictSet]
  simp

theorem mkdirParents_contains (fs : FS) (d : String) :
    (fs.mkdirParents d).dirs.contains d = true := by
  unfold FS.mkdirParents
  by_cases h : fs.dirs.contains d = true
  · rw [if_pos h]
    exact h
  · rw [if_neg h]
    simp

/-- C7: each pair is processed in the order render, create the output
path's parent directory, write the text overwriting any existing file,
fire the finish hook; the parent directory exists afterwards, and
rendering twice to the same output path succeeds both times, the file
afterwards holding the second rendering's text. -/
theorem render_pipeline_order_and_overwrite (renderHook : String → String)
    (fs : FS) (t t₁ t₂ p : String) :
    (processPair renderHook fs (t, p)).2 =
      [RenderEvent.render t, RenderEvent.mkdir (parentDir p),
       RenderEvent.write p (renderHook t), RenderEvent.finish p] ∧
    (processPair renderHook fs (t, p)).1.dirs.contains (parentDir p) = true ∧
    (renderLoop renderHook fs [t₁, t₂] [p, p]).1.readText p
        = some (renderHook t₂) := by
  refine ⟨rfl, ?_, ?_⟩
  · have hdirs : (processPair renderHook fs (t, p)).1.dirs
        = (fs.mkdirParents (parentDir p)).dirs := rfl
    rw [hdirs]
    exact mkdirParents_contains fs (parentDir p)
  · have hfinal : (renderLoop renderHook fs [t₁, t₂] [p, p]).1
        = (((fs.mkdirParents (parentDir p)).writeText p
              (renderHook t₁)).mkdirParents (parentDir p)).writeText p
            (renderHook t₂) := rfl
    rw [hfinal]
    exact readText_writeText_self _ _ _

end PytestReporter
